import Mathlib

/-!
Verification of the tiny-clean output-encoding library.

Shallow embedding conventions:
* A character is its Unicode code point, modelled as `Nat`.
* A Rust `&str` / `String` is a `List Nat` of code points.
* Rust `u32` arithmetic stays below `2 ^ 32` throughout (all masks are
  built from 32-bit constants by `&`, `|`, `^`, shifts of bounded
  amounts), so plain `Nat` bitwise operators model it exactly.
* Array indexing (`[u32; 4]`, `[u32; 8]`, the 16-entry hex tables) is
  modelled with `List.getElem?`; a Rust index-out-of-bounds panic
  becomes `none`.  Encoding functions therefore return
  `Option (List Nat)`: `some` is a normal return, `none` is a panic.
* Every definition is a computable structural recursion, so
  termination of `encode` holds by construction.
-/

/-- Code points of a Lean string literal, used to transcribe the Rust
string literals of the source. -/
def codes (s : String) : List Nat :=
  s.data.map Char.toNat

/-- Bitwise complement on 32 bits: Rust `!x` on a `u32`. -/
def not32 (x : Nat) : Nat :=
  0xFFFFFFFF ^^^ x

/-- common.rs `char_mask`: `1 << (c as u32 & 31)`. -/
def char_mask (c : Nat) : Nat :=
  1 <<< (c &&& 31)

/-- common.rs `char_bucket`: `(c as u32 >> 5) as usize`. -/
def char_bucket (c : Nat) : Nat :=
  c >>> 5

/-- common.rs `HEX`: lowercase hex digit table. -/
def HEX : List Nat :=
  codes "0123456789abcdef"

/-- common.rs `U_HEX`: uppercase hex digit table. -/
def U_HEX : List Nat :=
  codes "0123456789ABCDEF"

/-- common.rs `HEX_SHIFT`. -/
def HEX_SHIFT : Nat := 4

/-- common.rs `HEX_MASK`. -/
def HEX_MASK : Nat := 0x0F

/-- Sequential composition of the per-character encoding loop: the Rust
`for c in input.chars() { ... push chunk ... }` pattern, with `none`
propagating a panic. -/
def encode_all (f : Nat → Option (List Nat)) : List Nat → Option (List Nat)
  | [] => some []
  | c :: cs => (f c).bind fun chunk => (encode_all f cs).map fun rest => chunk ++ rest

/-! ### XML encoder (src/src/xml_encoder.rs) -/

inductive XmlEncoderMode
  | All
  | Content
  | Attribute
  | SingleQuotedAttribute
  | DoubleQuotedAttribute
deriving DecidableEq

/-- xml_encoder.rs `XmlEncoder::new`: the four 32-bit validity masks.
`base_mask` holds CR, tab, LF; bucket 1 clears the mode's
to-be-encoded characters; buckets 2 and 3 are all-valid. -/
def xml_new (mode : XmlEncoderMode) : List Nat :=
  let base_mask := char_mask 13 ||| char_mask 9 ||| char_mask 10
  match mode with
  | .All =>
      let tbe := char_mask 38 ||| char_mask 60 ||| char_mask 62 ||| char_mask 39 ||| char_mask 34
      [base_mask, 0xFFFFFFFF &&& not32 tbe, 0xFFFFFFFF, 0xFFFFFFFF]
  | .Content =>
      let tbe := char_mask 38 ||| char_mask 60 ||| char_mask 62
      [base_mask, 0xFFFFFFFF &&& not32 tbe, 0xFFFFFFFF, 0xFFFFFFFF]
  | .Attribute =>
      let tbe := char_mask 38 ||| char_mask 60 ||| char_mask 39 ||| char_mask 34
      [base_mask, 0xFFFFFFFF &&& not32 tbe, 0xFFFFFFFF, 0xFFFFFFFF]
  | .SingleQuotedAttribute =>
      let tbe := char_mask 38 ||| char_mask 60 ||| char_mask 39
      [base_mask, 0xFFFFFFFF &&& not32 tbe, 0xFFFFFFFF, 0xFFFFFFFF]
  | .DoubleQuotedAttribute =>
      let tbe := char_mask 38 ||| char_mask 60 ||| char_mask 34
      [base_mask, 0xFFFFFFFF &&& not32 tbe, 0xFFFFFFFF, 0xFFFFFFFF]

/-- xml_encoder.rs `XmlEncoder::encode`, body of the per-character loop.
`62` is the code point of the greater-than sign; `c > 62` short-circuits
before the mask table is indexed, exactly as in the source. -/
def xml_encode_char (masks : List Nat) (c : Nat) : Option (List Nat) :=
  if c < 127 then
    if 62 < c then some [c]
    else
      (masks[char_bucket c]?).bind fun m =>
        if m &&& char_mask c ≠ 0 then some [c]
        else if c = 38 then some (codes "&amp;")
        else if c = 60 then some (codes "&lt;")
        else if c = 62 then some (codes "&gt;")
        else if c = 39 then some (codes "&#39;")
        else if c = 34 then some (codes "&#34;")
        else some [32]
  else if 0xFFFD < c ∨ (0xFDD0 ≤ c ∧ c ≤ 0xFDEF) then some [32]
  else some [c]

/-- xml_encoder.rs `XmlEncoder::encode`. -/
def xml_encode (mode : XmlEncoderMode) (input : List Nat) : Option (List Nat) :=
  encode_all (xml_encode_char (xml_new mode)) input

/-- The markup characters a chunk of XML-encoder output must avoid:
never the less-than sign, and in `All` mode also greater-than and the
two quotes. -/
def xml_chunk_ok (mode : XmlEncoderMode) (l : List Nat) : Prop :=
  60 ∉ l ∧ (mode = .All → 62 ∉ l ∧ 39 ∉ l ∧ 34 ∉ l)

instance (mode : XmlEncoderMode) (l : List Nat) : Decidable (xml_chunk_ok mode l) := by
  unfold xml_chunk_ok
  infer_instance

/-- Boolean bridge for `xml_chunk_ok`, `false` on a panic. -/
def xml_chunk_check (mode : XmlEncoderMode) (o : Option (List Nat)) : Bool :=
  match o with
  | none => false
  | some l => decide (xml_chunk_ok mode l)

/-! ### URI encoder (src/src/uri_encoder.rs) -/

inductive UriEncoderMode
  | Component
  | FullUri
deriving DecidableEq

/-- uri_encoder.rs constant `MAX_UTF8_2_BYTE` (binary `0b0111_1111_1111`). -/
def MAX_UTF8_2_BYTE : Nat := 0x7FF

/-- uri_encoder.rs constant `UTF8_BYTE_MSB` (binary `0b1000_0000`). -/
def UTF8_BYTE_MSB : Nat := 0x80

/-- uri_encoder.rs constant `UTF8_2_BYTE_FIRST_MSB` (binary `0b1100_0000`). -/
def UTF8_2_BYTE_FIRST_MSB : Nat := 0xC0

/-- uri_encoder.rs constant `UTF8_3_BYTE_FIRST_MSB` (binary `0b1110_0000`). -/
def UTF8_3_BYTE_FIRST_MSB : Nat := 0xE0

/-- uri_encoder.rs constant `UTF8_4_BYTE_FIRST_MSB` (binary `0b1111_0000`). -/
def UTF8_4_BYTE_FIRST_MSB : Nat := 0xF0

/-- uri_encoder.rs constant `UTF8_SHIFT` (binary `0b0000_0110`, i.e. 6). -/
def UTF8_SHIFT : Nat := 6

/-- uri_encoder.rs constant `UTF8_MASK` (binary `0b0011_1111`). -/
def UTF8_MASK : Nat := 0x3F

/-- uri_encoder.rs `UriEncoder::new`: the four 32-bit validity masks.
Code points 48, 65, 97, 45, 46, 95, 126 are the characters `0`, `A`,
`a`, `-`, `.`, `_`, `~`; the FullUri reserved lists are transcribed in
the order of the source arrays. -/
def uri_new (mode : UriEncoderMode) : List Nat :=
  let one_to_nine := ((1 <<< 10) - 1) <<< (48 &&& 31)
  let uppercase_a_z := ((1 <<< 26) - 1) <<< (65 &&& 31)
  let lowercase_a_z := ((1 <<< 26) - 1) <<< (97 &&& 31)
  let uri_unreserved_bucket1 := one_to_nine ||| char_mask 45 ||| char_mask 46
  let uri_unreserved_bucket2 := uppercase_a_z ||| char_mask 95
  let uri_unreserved_bucket3 := lowercase_a_z ||| char_mask 126
  match mode with
  | .Component =>
      [0, uri_unreserved_bucket1, uri_unreserved_bucket2, uri_unreserved_bucket3]
  | .FullUri =>
      let reserved_chars1 : List Nat := [33, 35, 36, 63, 38, 40, 41, 42, 43, 44, 58, 59, 61, 47, 39]
      let uri_reserved_bucket1 := reserved_chars1.foldl (fun acc r => acc ||| char_mask r) 0
      let reserved_chars2 : List Nat := [91, 93, 64]
      let uri_reserved_bucket2 := reserved_chars2.foldl (fun acc r => acc ||| char_mask r) 0
      [0, uri_unreserved_bucket1 ||| uri_reserved_bucket1,
          uri_unreserved_bucket2 ||| uri_reserved_bucket2,
          uri_unreserved_bucket3]

/-- The repeated three-push pattern of uri_encoder.rs `encode`: a `%`
(code point 37) followed by the two uppercase hex digits of a byte. -/
def pct_hex (b : Nat) : Option (List Nat) :=
  (U_HEX[b >>> HEX_SHIFT]?).bind fun h =>
    (U_HEX[b &&& HEX_MASK]?).map fun lo => [37, h, lo]

/-- uri_encoder.rs `UriEncoder::encode`, body of the per-character loop. -/
def uri_encode_char (masks : List Nat) (c : Nat) : Option (List Nat) :=
  if c ≤ 127 then
    (masks[char_bucket c]?).bind fun m =>
      if m &&& char_mask c ≠ 0 then some [c]
      else pct_hex c
  else if c ≤ MAX_UTF8_2_BYTE then
    (pct_hex (UTF8_2_BYTE_FIRST_MSB ||| (c >>> UTF8_SHIFT))).bind fun p1 =>
      (pct_hex (UTF8_BYTE_MSB ||| (c &&& UTF8_MASK))).map fun p2 => p1 ++ p2
  else if c ≤ 0xFFFF then
    (pct_hex (UTF8_3_BYTE_FIRST_MSB ||| (c >>> (2 * UTF8_SHIFT)))).bind fun p1 =>
      (pct_hex (UTF8_BYTE_MSB ||| ((c >>> UTF8_SHIFT) &&& UTF8_MASK))).bind fun p2 =>
        (pct_hex (UTF8_BYTE_MSB ||| (c &&& UTF8_MASK))).map fun p3 => p1 ++ p2 ++ p3
  else
    (pct_hex (UTF8_4_BYTE_FIRST_MSB ||| (c >>> (3 * UTF8_SHIFT)))).bind fun p1 =>
      (pct_hex (UTF8_BYTE_MSB ||| ((c >>> (2 * UTF8_SHIFT)) &&& UTF8_MASK))).bind fun p2 =>
        (pct_hex (UTF8_BYTE_MSB ||| ((c >>> UTF8_SHIFT) &&& UTF8_MASK))).bind fun p3 =>
          (pct_hex (UTF8_BYTE_MSB ||| (c &&& UTF8_MASK))).map fun p4 => p1 ++ p2 ++ p3 ++ p4

/-- uri_encoder.rs `UriEncoder::encode`. -/
def uri_encode (mode : UriEncoderMode) (input : List Nat) : Option (List Nat) :=
  encode_all (uri_encode_char (uri_new mode)) input

/-- The canonical UTF-8 byte sequence of a Unicode scalar value,
written with division and remainder (the specification's reference
definition, independent of the source's shift-and-or arithmetic). -/
def utf8_bytes (c : Nat) : List Nat :=
  if c ≤ 0x7F then [c]
  else if c ≤ 0x7FF then [0xC0 + c / 64, 0x80 + c % 64]
  else if c ≤ 0xFFFF then [0xE0 + c / 4096, 0x80 + (c / 64) % 64, 0x80 + c % 64]
  else [0xF0 + c / 262144, 0x80 + (c / 4096) % 64, 0x80 + (c / 64) % 64, 0x80 + c % 64]

/-- Uppercase hexadecimal digit of a value below 16, as arithmetic. -/
def uhex_digit (n : Nat) : Nat :=
  if n < 10 then 48 + n else 55 + n

/-- A byte list rendered as percent-escapes with uppercase hex digits. -/
def percent_bytes (bs : List Nat) : List Nat :=
  (bs.map fun b => [37, uhex_digit (b / 16), uhex_digit (b % 16)]).flatten

/-- The RFC 3986 unreserved characters together with the delimiter
characters the FullUri mode leaves unescaped. -/
def uri_full_allowed : List Nat :=
  codes "ABCDEFGHIJKLMNOPQRSTUVWXYZabcdefghijklmnopqrstuvwxyz0123456789-._~" ++
    [33, 35, 36, 38, 39, 40, 41, 42, 43, 44, 58, 59, 61, 47, 63, 64, 91, 93]

/-! ### Rule model and compiler (src/src/encoder.rs) -/

/-- encoder.rs `EncodeOption`. -/
structure EncodeOption where
  min_len : Bool
  simple_escape : Bool
deriving DecidableEq

/-- encoder.rs `RuleType`: escape (with `min`/`simple` flags) or
substitution by a static string. -/
inductive RuleType
  | Esc (min : Bool) (simple : Bool)
  | Sub (s : List Nat)
deriving DecidableEq

/-- encoder.rs `Rule`: a range of characters (whose documentation marks
`end_character` as exclusive) or a single character. -/
inductive Rule
  | Range (start_character : Nat) (end_character : Nat)
      (exclude : Option (List Nat)) (rule_type : RuleType)
  | Uni (ch : Nat) (rt : RuleType)

/-- encoder.rs `CompiledEncoderRules`.  The two hash maps are modelled
as functions to `Option`; `FnvHashMap::insert` is pointwise update. -/
structure CompiledEncoderRules where
  valid_ascii_mask : List Nat
  replace_map : Nat → Option (List Nat)
  encode_map : Nat → Option EncodeOption
  output_buffer_max_len : Nat

/-- Hash-map insertion: overwrite the binding of `k`. -/
def upd {α : Type} (m : Nat → Option α) (k : Nat) (v : α) : Nat → Option α :=
  fun x => if x = k then some v else m x

/-- The Rust iterator `start..end` over `char`: the code points of the
half-open interval that are Unicode scalar values (the surrogate block
is skipped by `char`'s successor function). -/
def char_range (start stop : Nat) : List Nat :=
  ((List.range (stop - start)).map fun i => start + i).filter
    fun c => decide (c < 0xD800 ∨ 0xE000 ≤ c)

/-- encoder.rs mask clearing: `valid_mask[bucket] &= !char_mask(char)`.
For the in-bounds indices the compiler uses (`bucket < 8`) this is the
Rust read-modify-write; `List.set` and `getD` keep it total. -/
def clear_mask_bit (masks : List Nat) (c : Nat) : List Nat :=
  masks.set (char_bucket c) (masks.getD (char_bucket c) 0 &&& not32 (char_mask c))

/-- The bit the encoder tests for a character:
`valid_ascii_mask[bucket] & mask`. -/
def mask_bit (masks : List Nat) (c : Nat) : Nat :=
  masks.getD (char_bucket c) 0 &&& char_mask c

/-- encoder.rs `exclude.as_ref().is_some_and(|excl| excl.contains(&char))`. -/
def excluded (exclude : Option (List Nat)) (c : Nat) : Bool :=
  match exclude with
  | none => false
  | some l => l.contains c

/-- Body of the encoder.rs `Range`/`Esc` per-character loop
(`start` and `end` both below 256). -/
def range_esc_step (min simple : Bool) (exclude : Option (List Nat))
    (s : CompiledEncoderRules) (c : Nat) : CompiledEncoderRules :=
  if excluded exclude c then s
  else { s with valid_ascii_mask := clear_mask_bit s.valid_ascii_mask c,
                encode_map := upd s.encode_map c ⟨min, simple⟩ }

/-- Body of the encoder.rs `Range`/`Sub` per-character loop
(`start` and `end` both below 256). -/
def range_sub_step (rs : List Nat) (exclude : Option (List Nat))
    (s : CompiledEncoderRules) (c : Nat) : CompiledEncoderRules :=
  if excluded exclude c then s
  else { s with output_buffer_max_len := max s.output_buffer_max_len rs.length,
                valid_ascii_mask := clear_mask_bit s.valid_ascii_mask c,
                replace_map := upd s.replace_map c rs }

/-- Body of the encoder.rs `Range`/`Esc` loop for ranges not entirely
below 256: map entry only, no mask bit. -/
def range_esc_step_hi (min simple : Bool) (exclude : Option (List Nat))
    (s : CompiledEncoderRules) (c : Nat) : CompiledEncoderRules :=
  if excluded exclude c then s
  else { s with encode_map := upd s.encode_map c ⟨min, simple⟩ }

/-- Body of the encoder.rs `Range`/`Sub` loop for ranges not entirely
below 256: map entry only, no mask bit. -/
def range_sub_step_hi (rs : List Nat) (exclude : Option (List Nat))
    (s : CompiledEncoderRules) (c : Nat) : CompiledEncoderRules :=
  if excluded exclude c then s
  else { s with output_buffer_max_len := max s.output_buffer_max_len rs.length,
                replace_map := upd s.replace_map c rs }

/-- encoder.rs `compile_encoder_rules`, one rule.  `none` models a
panic: the `assert!(start < end)` of a malformed range, or the
out-of-bounds `valid_mask[8]` hit by a `Uni` rule at code point 256
(`char_bucket 256 = 8` on an 8-word array, reachable because the
source's guard is `c <= 256` rather than `c < 256`). -/
def apply_rule (st : CompiledEncoderRules) : Rule → Option CompiledEncoderRules
  | .Range start stop exclude rule_type =>
      if start < stop then
        if start < 256 ∧ stop < 256 then
          match rule_type with
          | .Esc min simple =>
              some ((char_range start stop).foldl (range_esc_step min simple exclude) st)
          | .Sub rs =>
              some ((char_range start stop).foldl (range_sub_step rs exclude) st)
        else
          match rule_type with
          | .Esc min simple =>
              some ((char_range start stop).foldl (range_esc_step_hi min simple exclude) st)
          | .Sub rs =>
              some ((char_range start stop).foldl (range_sub_step_hi rs exclude) st)
      else none
  | .Uni c rt =>
      if c ≤ 256 then
        if char_bucket c < 8 then
          match rt with
          | .Esc min simple =>
              some { st with valid_ascii_mask := clear_mask_bit st.valid_ascii_mask c,
                             encode_map := upd st.encode_map c ⟨min, simple⟩ }
          | .Sub rs =>
              some { st with output_buffer_max_len := max st.output_buffer_max_len rs.length,
                             valid_ascii_mask := clear_mask_bit st.valid_ascii_mask c,
                             replace_map := upd st.replace_map c rs }
        else none
      else
        match rt with
        | .Esc min simple =>
            some { st with encode_map := upd st.encode_map c ⟨min, simple⟩ }
        | .Sub rs =>
            some { st with output_buffer_max_len := max st.output_buffer_max_len rs.length,
                           replace_map := upd st.replace_map c rs }

/-- The initial compiler state: all 256 mask bits set, empty maps,
`largest_replace = 1`. -/
def init_compiled : CompiledEncoderRules :=
  { valid_ascii_mask := List.replicate 8 0xFFFFFFFF,
    replace_map := fun _ => none,
    encode_map := fun _ => none,
    output_buffer_max_len := 1 }

/-- The rule loop of encoder.rs `compile_encoder_rules`. -/
def compile_go (st : CompiledEncoderRules) : List Rule → Option CompiledEncoderRules
  | [] => some st
  | r :: rs => (apply_rule st r).bind fun st2 => compile_go st2 rs

/-- encoder.rs `compile_encoder_rules`. -/
def compile_encoder_rules (rules : List Rule) : Option CompiledEncoderRules :=
  compile_go init_compiled rules

/-! ### JavaScript encoder (src/src/java_script_encoder.rs)

java_script_encoder.rs belongs to the final, invalid-set era of the
engine: its rules use a one-flag `Esc`, its compiled artifact carries
`invalid_set` and an `encode_map` of simple-escape flags, and its
encoder has an `invalid_char`.  The compiler of that era is not among
the source files; only this caller is.  Its compilation step is
therefore modelled from the specification (see
`js_compile_encoder_rules`), while the rule tables and the encode loop
below are transcribed from java_script_encoder.rs itself. -/

inductive JavaScriptEncoderMode
  | Source
  | Block
  | Html
  | Attribute
deriving DecidableEq

/-- encoder.rs `ValidAsciiRange` (the AsciiPolicy of the spec). -/
inductive ValidAsciiRange
  | ASCII
  | ASCIIExtended
  | NoRestrict
deriving DecidableEq

/-- The rule vocabulary of the invalid-set era, as used by
java_script_encoder.rs: `Esc(simple)`, `Sub(str)`, and the invalidate
action backing `invalid_set`. -/
inductive JsRuleType
  | Esc (simple : Bool)
  | Sub (s : List Nat)
  | Inv

/-- A rule of the invalid-set era: range or single character. -/
inductive JsRule
  | Range (start_character : Nat) (end_character : Nat)
      (exclude : Option (List Nat)) (rule_type : JsRuleType)
  | Uni (ch : Nat) (rt : JsRuleType)

/-- The compiled artifact of the invalid-set era, as consumed by
java_script_encoder.rs `encode`: 8-word mask, substitution map,
escape map holding the simple flag, invalid set, buffer hint. -/
structure JsCompiledRules where
  valid_ascii_mask : List Nat
  replace_map : Nat → Option (List Nat)
  encode_map : Nat → Option Bool
  invalid_set : Nat → Bool
  output_buffer_max_len : Nat

/-- Modelled from the spec: the per-character step of the invalid-set
era rule compiler, which is absent from src/ (java_script_encoder.rs is
its only witness).  Spec 4.2: for a character below 256 clear the
corresponding mask bit and record the action in the appropriate map;
for a character at or above 256 record the action without touching the
mask; track the running maximum substitution length. -/
def js_record (rt : JsRuleType) (st : JsCompiledRules) (c : Nat) : JsCompiledRules :=
  let st :=
    if c < 256 then { st with valid_ascii_mask := clear_mask_bit st.valid_ascii_mask c }
    else st
  match rt with
  | .Esc simple => { st with encode_map := upd st.encode_map c simple }
  | .Sub s => { st with replace_map := upd st.replace_map c s,
                        output_buffer_max_len := max st.output_buffer_max_len s.length }
  | .Inv => { st with invalid_set := fun x => if x = c then true else st.invalid_set x }

/-- The Rust iterator over the inclusive range `[start, end]` of
characters (scalar values only). -/
def char_range_incl (start stop : Nat) : List Nat :=
  char_range start (stop + 1)

/-- Modelled from the spec: one rule of the invalid-set era compiler.
Spec 4.2: a Range rule applies the per-character step to every
character of the inclusive range not in the exclusion set; a Uni rule
to its single character; a range with `start >= end` is a fatal
construction error (`none`). -/
def js_apply_rule (st : JsCompiledRules) : JsRule → Option JsCompiledRules
  | .Range start stop exclude rt =>
      if start < stop then
        some (((char_range_incl start stop).filter fun c => !excluded exclude c).foldl
          (js_record rt) st)
      else none
  | .Uni c rt => some (js_record rt st c)

/-- The initial state of the invalid-set era compiler: all 256 mask
bits set, empty maps, empty invalid set, buffer hint 1. -/
def js_init_compiled : JsCompiledRules :=
  { valid_ascii_mask := List.replicate 8 0xFFFFFFFF,
    replace_map := fun _ => none,
    encode_map := fun _ => none,
    invalid_set := fun _ => false,
    output_buffer_max_len := 1 }

/-- The rule loop of the invalid-set era compiler. -/
def js_compile_go (st : JsCompiledRules) : List JsRule → Option JsCompiledRules
  | [] => some st
  | r :: rs => (js_apply_rule st r).bind fun st2 => js_compile_go st2 rs

/-- Modelled from the spec: the invalid-set era
`compile_encoder_rules`, called by java_script_encoder.rs `create`. -/
def js_compile_encoder_rules (rules : List JsRule) : Option JsCompiledRules :=
  js_compile_go js_init_compiled rules

/-- java_script_encoder.rs `JavaScriptEncoder::create`: the per-mode
rule tables, transcribed in source order.  Code points: 8 BS, 9 TAB,
10 LF, 12 FF, 13 CR, 0 NUL, 34 double quote, 38 ampersand, 39
apostrophe, 45 hyphen, 47 slash, 92 backslash, 0x2028/0x2029 the line
and paragraph separators. -/
def js_rules : JavaScriptEncoderMode → List JsRule
  | .Source =>
      [JsRule.Uni 8 (JsRuleType.Sub (codes "\\b")),
       JsRule.Uni 9 (JsRuleType.Sub (codes "\\t")),
       JsRule.Uni 10 (JsRuleType.Sub (codes "\\n")),
       JsRule.Uni 12 (JsRuleType.Sub (codes "\\f")),
       JsRule.Uni 13 (JsRuleType.Sub (codes "\\r")),
       JsRule.Uni 0x2028 (JsRuleType.Esc true),
       JsRule.Uni 0x2029 (JsRuleType.Esc true),
       JsRule.Uni 0 (JsRuleType.Esc false),
       JsRule.Uni 34 (JsRuleType.Esc true),
       JsRule.Uni 39 (JsRuleType.Esc true),
       JsRule.Uni 92 (JsRuleType.Esc true),
       JsRule.Uni 38 (JsRuleType.Esc false)]
  | .Block =>
      [JsRule.Uni 8 (JsRuleType.Sub (codes "\\b")),
       JsRule.Uni 9 (JsRuleType.Sub (codes "\\t")),
       JsRule.Uni 10 (JsRuleType.Sub (codes "\\n")),
       JsRule.Uni 12 (JsRuleType.Sub (codes "\\f")),
       JsRule.Uni 13 (JsRuleType.Sub (codes "\\r")),
       JsRule.Uni 0 (JsRuleType.Esc false),
       JsRule.Uni 47 (JsRuleType.Esc true),
       JsRule.Uni 0x2028 (JsRuleType.Esc true),
       JsRule.Uni 0x2029 (JsRuleType.Esc true),
       JsRule.Uni 45 (JsRuleType.Esc true),
       JsRule.Uni 34 (JsRuleType.Esc true),
       JsRule.Uni 39 (JsRuleType.Esc true),
       JsRule.Uni 38 (JsRuleType.Esc true),
       JsRule.Uni 92 (JsRuleType.Esc true)]
  | .Html =>
      [JsRule.Uni 8 (JsRuleType.Sub (codes "\\b")),
       JsRule.Uni 9 (JsRuleType.Sub (codes "\\t")),
       JsRule.Uni 10 (JsRuleType.Sub (codes "\\n")),
       JsRule.Uni 12 (JsRuleType.Sub (codes "\\f")),
       JsRule.Uni 13 (JsRuleType.Sub (codes "\\r")),
       JsRule.Uni 0 (JsRuleType.Esc false),
       JsRule.Uni 0x2028 (JsRuleType.Esc true),
       JsRule.Uni 0x2029 (JsRuleType.Esc true),
       JsRule.Uni 47 (JsRuleType.Esc true),
       JsRule.Uni 45 (JsRuleType.Esc true),
       JsRule.Uni 34 (JsRuleType.Esc false),
       JsRule.Uni 39 (JsRuleType.Esc false),
       JsRule.Uni 38 (JsRuleType.Esc true),
       JsRule.Uni 92 (JsRuleType.Esc true)]
  | .Attribute =>
      [JsRule.Uni 8 (JsRuleType.Sub (codes "\\b")),
       JsRule.Uni 9 (JsRuleType.Sub (codes "\\t")),
       JsRule.Uni 10 (JsRuleType.Sub (codes "\\n")),
       JsRule.Uni 12 (JsRuleType.Sub (codes "\\f")),
       JsRule.Uni 13 (JsRuleType.Sub (codes "\\r")),
       JsRule.Uni 0x2028 (JsRuleType.Esc true),
       JsRule.Uni 0x2029 (JsRuleType.Esc true),
       JsRule.Uni 0 (JsRuleType.Esc false),
       JsRule.Uni 34 (JsRuleType.Esc false),
       JsRule.Uni 39 (JsRuleType.Esc false),
       JsRule.Uni 38 (JsRuleType.Esc true),
       JsRule.Uni 92 (JsRuleType.Esc true)]

/-- common.rs `encode_as_hex_byte`: escape char, `x` (120), then the
two hex digits of the character; the high-nibble index is NOT masked in
the source, so it is only in bounds for code points up to 0xFF. -/
def encode_as_hex_byte (escape_char c : Nat) : Option (List Nat) :=
  (HEX[c >>> HEX_SHIFT]?).bind fun hi =>
    (HEX[c &&& HEX_MASK]?).map fun lo => [escape_char, 120, hi, lo]

/-- common.rs `encode_as_unicode`: escape char, `u` (117), then the
four hex digits of the 16-bit code unit; every index is masked with
`HEX_MASK`. -/
def encode_as_unicode (escape_char c : Nat) : Option (List Nat) :=
  (HEX[(c >>> (3 * HEX_SHIFT)) &&& HEX_MASK]?).bind fun d3 =>
    (HEX[(c >>> (2 * HEX_SHIFT)) &&& HEX_MASK]?).bind fun d2 =>
      (HEX[(c >>> (1 * HEX_SHIFT)) &&& HEX_MASK]?).bind fun d1 =>
        (HEX[c &&& HEX_MASK]?).map fun d0 => [escape_char, 117, d3, d2, d1, d0]

/-- The final `match self.ascii_properties()` of java_script_encoder.rs
`encode`, reached when no rule matched the character. -/
def js_policy_fallback (policy : ValidAsciiRange) (escape_char c : Nat) : Option (List Nat) :=
  match policy with
  | .NoRestrict => some [c]
  | .ASCIIExtended => if 0xFF < c then encode_as_unicode escape_char c else some [c]
  | .ASCII => if c ≤ 0xFF then encode_as_hex_byte escape_char c
              else encode_as_unicode escape_char c

/-- java_script_encoder.rs `JavaScriptEncoder::encode`, body of the
per-character loop, with the source's exact branch structure: the
below-256 fast path consults the mask, then encode_map (simple flag),
replace_map, invalid_set in that order; a set mask bit passes the
character through only under the ASCII policy below 127; at or above
256 the order is replace_map, encode_map, invalid_set; anything left
falls to the policy match. -/
def js_encode_char (r : JsCompiledRules) (escape_char invalid_char : Nat)
    (policy : ValidAsciiRange) (c : Nat) : Option (List Nat) :=
  if c < 256 then
    (r.valid_ascii_mask[char_bucket c]?).bind fun m =>
      if m &&& char_mask c = 0 then
        match r.encode_map c with
        | some simple =>
            if simple then some [escape_char, c]
            else if c ≤ 0xFF then encode_as_hex_byte escape_char c
            else encode_as_unicode escape_char c
        | none =>
            match r.replace_map c with
            | some s => some s
            | none =>
                if r.invalid_set c then some [invalid_char]
                else js_policy_fallback policy escape_char c
      else
        match policy with
        | .ASCII =>
            if c < 127 then some [c] else js_policy_fallback policy escape_char c
        | _ => js_policy_fallback policy escape_char c
  else
    match r.replace_map c with
    | some s => some s
    | none =>
        match r.encode_map c with
        | some _ =>
            if c ≤ 0xFF then encode_as_hex_byte escape_char c
            else encode_as_unicode escape_char c
        | none =>
            if r.invalid_set c then some [invalid_char]
            else js_policy_fallback policy escape_char c

/-- java_script_encoder.rs `JavaScriptEncoder`. -/
structure JavaScriptEncoder where
  rules : JsCompiledRules
  escape_char : Nat
  invalid_char : Nat
  ascii_properties : ValidAsciiRange

/-- java_script_encoder.rs `JavaScriptEncoder::create`: compile the
mode's rule table; every mode sets `invalid_char` to a space (32). -/
def js_create (escape_char : Nat) (valid_ascii_range : ValidAsciiRange)
    (mode : JavaScriptEncoderMode) : Option JavaScriptEncoder :=
  (js_compile_encoder_rules (js_rules mode)).map fun compiled =>
    { rules := compiled, escape_char := escape_char, invalid_char := 32,
      ascii_properties := valid_ascii_range }

/-- java_script_encoder.rs `JavaScriptEncoder::encode`. -/
def js_encode (enc : JavaScriptEncoder) (input : List Nat) : Option (List Nat) :=
  encode_all (js_encode_char enc.rules enc.escape_char enc.invalid_char enc.ascii_properties)
    input

/-- Construction followed by encoding, with the backslash (92) escape
character used by all the source's tests. -/
def js_encode_str (mode : JavaScriptEncoderMode) (policy : ValidAsciiRange)
    (escape_char : Nat) (input : List Nat) : Option (List Nat) :=
  (js_create escape_char policy mode).bind fun enc => js_encode enc input

/-- The C0 control characters no JavaScript profile rule covers. -/
def js_uncovered_ctrls : List Nat :=
  [1, 2, 3, 4, 5, 6, 7, 0xB, 0xE, 0xF, 0x10, 0x11, 0x12, 0x13, 0x14, 0x15,
   0x16, 0x17, 0x18, 0x19, 0x1A, 0x1B, 0x1C, 0x1D, 0x1E, 0x1F]

/-- The compiled artifact of each JavaScript mode. -/
def js_artifact (mode : JavaScriptEncoderMode) : JsCompiledRules :=
  (js_compile_encoder_rules (js_rules mode)).getD js_init_compiled

/-! ### Theorems and examples -/
theorem encode_all_cons (f : Nat → Option (List Nat)) (c : Nat) (cs : List Nat) :
    encode_all f (c :: cs) =
      (f c).bind fun chunk => (encode_all f cs).map fun rest => chunk ++ rest := rfl

theorem encode_all_isSome (f : Nat → Option (List Nat)) (l : List Nat)
    (h : ∀ c ∈ l, (f c).isSome) : (encode_all f l).isSome := by
  induction l with
  | nil => simp [encode_all]
  | cons c cs ih =>
    have hc := h c (by simp)
    have hcs := ih (fun x hx => h x (by simp [hx]))
    rcases Option.isSome_iff_exists.mp hc with ⟨chunk, hchunk⟩
    rcases Option.isSome_iff_exists.mp hcs with ⟨rest, hrest⟩
    simp [encode_all, hchunk, hrest]

theorem xml_char_check_lt127 (mode : XmlEncoderMode) :
    ∀ c < 127, xml_chunk_check mode (xml_encode_char (xml_new mode) c) = true := by
  cases mode <;> decide

theorem xml_char_ok (mode : XmlEncoderMode) (c : Nat) :
    ∃ l, xml_encode_char (xml_new mode) c = some l ∧ xml_chunk_ok mode l := by
  by_cases hc : c < 127
  · have h := xml_char_check_lt127 mode c hc
    cases hfc : xml_encode_char (xml_new mode) c with
    | none => rw [hfc] at h; simp [xml_chunk_check] at h
    | some l =>
      rw [hfc] at h
      exact ⟨l, rfl, of_decide_eq_true (by simpa [xml_chunk_check] using h)⟩
  · unfold xml_encode_char
    rw [if_neg hc]
    by_cases hbig : 0xFFFD < c ∨ (0xFDD0 ≤ c ∧ c ≤ 0xFDEF)
    · rw [if_pos hbig]
      exact ⟨[32], rfl, by decide, fun _ => by decide⟩
    · rw [if_neg hbig]
      refine ⟨[c], rfl, ?_, fun _ => ⟨?_, ?_, ?_⟩⟩ <;>
        (simp only [List.mem_singleton]; omega)

example : xml_encode .All (codes "&") = some (codes "&amp;") := by decide
example : xml_encode .All (codes "<a>") = some (codes "&lt;a&gt;") := by decide
example : xml_encode .Content [34] = some [34] := by decide
example : xml_encode .All [0xFFFF] = some [32] := by decide
example : xml_encode .All [0xFFFD] = some [0xFFFD] := by decide
example : xml_encode .All [12] = some [32] := by decide
example : xml_encode .All [9, 10, 13] = some [9, 10, 13] := by decide

/-- C1: for every XmlEncoder mode and every input string, encode
terminates (it is a structural recursion) and its output contains no
occurrence of the character `<` (code point 60); moreover in `All` mode
none of `<`, `>` (62), the apostrophe (39) and the double quote (34)
occur in the output. -/
theorem xml_encode_markup_free (mode : XmlEncoderMode) (input : List Nat) :
    ∃ out, xml_encode mode input = some out ∧ 60 ∉ out ∧
      (mode = .All → 62 ∉ out ∧ 39 ∉ out ∧ 34 ∉ out) := by
  induction input with
  | nil => exact ⟨[], rfl, by simp, fun _ => by simp⟩
  | cons c cs ih =>
    obtain ⟨l, hl, hok60, hokAll⟩ := xml_char_ok mode c
    obtain ⟨out, hout, h60, hall⟩ := ih
    refine ⟨l ++ out, ?_, ?_, fun hAll => ⟨?_, ?_, ?_⟩⟩
    · show encode_all _ (c :: cs) = _
      rw [encode_all_cons, hl]
      simpa using congrArg (Option.map fun rest => l ++ rest) hout
    · simp only [List.mem_append]
      rintro (h | h)
      · exact hok60 h
      · exact h60 h
    all_goals
      obtain ⟨hl62, hl39, hl34⟩ := hokAll hAll
      obtain ⟨ho62, ho39, ho34⟩ := hall hAll
      simp only [List.mem_append]
      rintro (h | h) <;> simp_all

/-- C7 counterexample: the form feed character U+000C is not passed
through unchanged by the XML encoder; it is replaced by the invalid
placeholder (a space). -/
theorem xml_ff_replaced_cex :
    xml_encode XmlEncoderMode.All [12] = some [32] ∧
    xml_encode XmlEncoderMode.All [12] ≠ some [12] := by
  constructor <;> decide

/-- Bounded helper for the control-character portion of the XML
character-validity theorem. -/
theorem xml_ctrl_check (mode : XmlEncoderMode) :
    ∀ c < 32, (c ∉ ([9, 10, 13] : List Nat) → xml_encode mode [c] = some [32]) ∧
      (c ∈ ([9, 10, 13] : List Nat) → xml_encode mode [c] = some [c]) := by
  cases mode <;> decide

/-- C7 (amended): for every XML mode, encode replaces every code point
in [0x00, 0x1F] other than tab (0x09), LF (0x0A) and CR (0x0D) with the
single invalid-placeholder character (a space); it passes tab, LF and
CR through unchanged; form feed (0x0C) is NOT preserved but replaced by
the placeholder; and it replaces every code point above 0xFFFD and
every code point in [0xFDD0, 0xFDEF] with the placeholder. -/
theorem xml_charset_validity (mode : XmlEncoderMode) (c : Nat) :
    (c ≤ 0x1F → c ≠ 9 → c ≠ 10 → c ≠ 13 → xml_encode mode [c] = some [32]) ∧
    (c = 9 ∨ c = 10 ∨ c = 13 → xml_encode mode [c] = some [c]) ∧
    (0xFFFD < c → xml_encode mode [c] = some [32]) ∧
    (0xFDD0 ≤ c → c ≤ 0xFDEF → xml_encode mode [c] = some [32]) := by
  have hinval : ∀ hc : ¬ c < 127, (0xFFFD < c ∨ (0xFDD0 ≤ c ∧ c ≤ 0xFDEF)) →
      xml_encode mode [c] = some [32] := by
    intro hc hbig
    have hfc : xml_encode_char (xml_new mode) c = some [32] := by
      unfold xml_encode_char
      rw [if_neg hc, if_pos hbig]
    show encode_all _ [c] = _
    rw [encode_all_cons, hfc]
    rfl
  refine ⟨fun h1 h2 h3 h4 => (xml_ctrl_check mode c (by omega)).1 (by simp; omega),
          fun h => (xml_ctrl_check mode c (by omega)).2 (by simp; omega),
          fun h => hinval (by omega) (Or.inl h),
          fun h1 h2 => hinval (by omega) (Or.inr ⟨h1, h2⟩)⟩

/-- Witness for `xml_charset_validity` at concrete inputs. -/
theorem xml_charset_validity_witness :
    xml_encode XmlEncoderMode.All [1] = some [32] ∧
    xml_encode XmlEncoderMode.Content [9] = some [9] ∧
    xml_encode XmlEncoderMode.All [0xFFFF] = some [32] ∧
    xml_encode XmlEncoderMode.All [0xFDD0] = some [32] :=
  ⟨(xml_charset_validity .All 1).1 (by decide) (by decide) (by decide) (by decide),
   (xml_charset_validity .Content 9).2.1 (Or.inl rfl),
   (xml_charset_validity .All 0xFFFF).2.2.1 (by decide),
   (xml_charset_validity .All 0xFDD0).2.2.2 (by decide) (by decide)⟩

example : uri_encode .Component (codes "abcABC123") = some (codes "abcABC123") := by decide
example : uri_encode .Component (codes " ") = some (codes "%20") := by decide
example : uri_encode .Component (codes ":") = some (codes "%3A") := by decide
example : uri_encode .FullUri (codes ":") = some (codes ":") := by decide
example : uri_encode .FullUri [0xA0] = some (codes "%C2%A0") := by decide
example : uri_encode .FullUri [0x800] = some (codes "%E0%A0%80") := by decide
example : uri_encode .Component (codes "%") = some (codes "%25") := by decide

set_option maxRecDepth 10000 in
theorem pct_hex_lt256 : ∀ b < 256, pct_hex b = some [37, uhex_digit (b / 16), uhex_digit (b % 16)] := by
  decide

theorem shiftRight_div64 (c : Nat) : c >>> 6 = c / 64 := by
  rw [Nat.shiftRight_eq_div_pow]

theorem shiftRight_div4096 (c : Nat) : c >>> 12 = c / 4096 := by
  rw [Nat.shiftRight_eq_div_pow]

theorem shiftRight_div262144 (c : Nat) : c >>> 18 = c / 262144 := by
  rw [Nat.shiftRight_eq_div_pow]

theorem and_63_mod (c : Nat) : c &&& 63 = c % 64 := Nat.and_pow_two_sub_one_eq_mod c 6

theorem or_192 : ∀ d < 32, 192 ||| d = 192 + d := by decide

theorem or_224 : ∀ d < 16, 224 ||| d = 224 + d := by decide

theorem or_240 : ∀ d < 16, 240 ||| d = 240 + d := by decide

theorem or_128 : ∀ d < 64, 128 ||| d = 128 + d := by decide

theorem uri_utf8_char (masks : List Nat) (c : Nat) (h1 : 128 ≤ c) (h2 : c < 0x110000) :
    uri_encode_char masks c = some (percent_bytes (utf8_bytes c)) := by
  unfold uri_encode_char
  rw [if_neg (by omega)]
  by_cases hb2 : c ≤ MAX_UTF8_2_BYTE
  · rw [if_pos hb2]
    have hmax : c ≤ 0x7FF := hb2
    have e1 : UTF8_2_BYTE_FIRST_MSB ||| (c >>> UTF8_SHIFT) = 192 + c / 64 := by
      show 192 ||| (c >>> 6) = _
      rw [shiftRight_div64]
      exact or_192 _ (by omega)
    have e2 : UTF8_BYTE_MSB ||| (c &&& UTF8_MASK) = 128 + c % 64 := by
      show 128 ||| (c &&& 63) = _
      rw [and_63_mod]
      exact or_128 _ (by omega)
    rw [e1, e2, pct_hex_lt256 _ (by omega), pct_hex_lt256 _ (by omega)]
    unfold utf8_bytes
    rw [if_neg (by omega), if_pos (by omega)]
    simp [percent_bytes]
  · rw [if_neg hb2]
    have hgt : 0x7FF < c := by simpa [MAX_UTF8_2_BYTE] using hb2
    by_cases hb3 : c ≤ 0xFFFF
    · rw [if_pos hb3]
      have e1 : UTF8_3_BYTE_FIRST_MSB ||| (c >>> (2 * UTF8_SHIFT)) = 224 + c / 4096 := by
        show 224 ||| (c >>> 12) = _
        rw [shiftRight_div4096]
        exact or_224 _ (by omega)
      have e2 : UTF8_BYTE_MSB ||| ((c >>> UTF8_SHIFT) &&& UTF8_MASK) = 128 + (c / 64) % 64 := by
        show 128 ||| ((c >>> 6) &&& 63) = _
        rw [shiftRight_div64, and_63_mod]
        exact or_128 _ (by omega)
      have e3 : UTF8_BYTE_MSB ||| (c &&& UTF8_MASK) = 128 + c % 64 := by
        show 128 ||| (c &&& 63) = _
        rw [and_63_mod]
        exact or_128 _ (by omega)
      rw [e1, e2, e3, pct_hex_lt256 _ (by omega), pct_hex_lt256 _ (by omega),
        pct_hex_lt256 _ (by omega)]
      unfold utf8_bytes
      rw [if_neg (by omega), if_neg (by omega), if_pos (by omega)]
      simp [percent_bytes]
    · rw [if_neg hb3]
      have e1 : UTF8_4_BYTE_FIRST_MSB ||| (c >>> (3 * UTF8_SHIFT)) = 240 + c / 262144 := by
        show 240 ||| (c >>> 18) = _
        rw [shiftRight_div262144]
        exact or_240 _ (by omega)
      have e2 : UTF8_BYTE_MSB ||| ((c >>> (2 * UTF8_SHIFT)) &&& UTF8_MASK) = 128 + (c / 4096) % 64 := by
        show 128 ||| ((c >>> 12) &&& 63) = _
        rw [shiftRight_div4096, and_63_mod]
        exact or_128 _ (by omega)
      have e3 : UTF8_BYTE_MSB ||| ((c >>> UTF8_SHIFT) &&& UTF8_MASK) = 128 + (c / 64) % 64 := by
        show 128 ||| ((c >>> 6) &&& 63) = _
        rw [shiftRight_div64, and_63_mod]
        exact or_128 _ (by omega)
      have e4 : UTF8_BYTE_MSB ||| (c &&& UTF8_MASK) = 128 + c % 64 := by
        show 128 ||| (c &&& 63) = _
        rw [and_63_mod]
        exact or_128 _ (by omega)
      rw [e1, e2, e3, e4, pct_hex_lt256 _ (by omega), pct_hex_lt256 _ (by omega),
        pct_hex_lt256 _ (by omega), pct_hex_lt256 _ (by omega)]
      unfold utf8_bytes
      rw [if_neg (by omega), if_neg (by omega), if_neg (by omega)]
      simp [percent_bytes]

/-- C3: for every character with code point at least 128 and both URI
modes, encode appends exactly the canonical UTF-8 byte sequence of the
character, each byte rendered as a percent sign followed by two
uppercase hexadecimal digits (2-byte form up to 0x7FF, 3-byte form up
to 0xFFFF, 4-byte form beyond); in particular U+00A0 encodes to
"%C2%A0" and U+0800 encodes to "%E0%A0%80". -/
theorem uri_encode_utf8 :
    (∀ (mode : UriEncoderMode) (c : Nat), 128 ≤ c → c < 0x110000 →
      ¬(0xD800 ≤ c ∧ c < 0xE000) →
      uri_encode mode [c] = some (percent_bytes (utf8_bytes c))) ∧
    uri_encode UriEncoderMode.FullUri [0xA0] = some (codes "%C2%A0") ∧
    uri_encode UriEncoderMode.FullUri [0x800] = some (codes "%E0%A0%80") := by
  refine ⟨fun mode c h1 h2 _ => ?_, by decide, by decide⟩
  show encode_all _ [c] = _
  rw [encode_all_cons, uri_utf8_char _ c h1 h2]
  simp [encode_all]

/-- Witness for `uri_encode_utf8` at the concrete scalar U+1F600. -/
theorem uri_encode_utf8_witness :
    uri_encode UriEncoderMode.Component [0x1F600] = some (percent_bytes (utf8_bytes 0x1F600)) :=
  uri_encode_utf8.1 UriEncoderMode.Component 0x1F600 (by decide) (by decide) (by decide)

set_option maxRecDepth 10000 in
theorem uri_full_char_fixed :
    ∀ c ∈ uri_full_allowed, uri_encode_char (uri_new .FullUri) c = some [c] := by
  decide

/-- C9: every string made only of RFC 3986 unreserved characters and
the FullUri delimiter characters is a fixed point of the FullUri
encoder; in particular the sample URI is returned verbatim. -/
theorem uri_fulluri_fixed_point :
    (∀ input : List Nat, (∀ c ∈ input, c ∈ uri_full_allowed) →
      uri_encode UriEncoderMode.FullUri input = some input) ∧
    uri_encode UriEncoderMode.FullUri
        (codes "http://www.example.org/index.php?foo=bar&baz#fragment") =
      some (codes "http://www.example.org/index.php?foo=bar&baz#fragment") := by
  have main : ∀ input : List Nat, (∀ c ∈ input, c ∈ uri_full_allowed) →
      uri_encode UriEncoderMode.FullUri input = some input := by
    intro input hin
    induction input with
    | nil => rfl
    | cons c cs ih =>
      have hc := uri_full_char_fixed c (hin c (by simp))
      have hcs : encode_all (uri_encode_char (uri_new .FullUri)) cs = some cs :=
        ih (fun x hx => hin x (by simp [hx]))
      show encode_all _ (c :: cs) = _
      rw [encode_all_cons, hc, hcs]
      rfl
  refine ⟨main, main _ ?_⟩
  decide

/-- Witness for `uri_fulluri_fixed_point` at a concrete input. -/
theorem uri_fulluri_fixed_point_witness :
    uri_encode UriEncoderMode.FullUri (codes "a:/b?c") = some (codes "a:/b?c") :=
  uri_fulluri_fixed_point.1 (codes "a:/b?c") (by decide)

theorem one_shiftLeft_eq (k : Nat) : 1 <<< k = 2 ^ k := by
  rw [Nat.shiftLeft_eq, one_mul]

theorem and_31_mod (c : Nat) : c &&& 31 = c % 32 := Nat.and_pow_two_sub_one_eq_mod c 5

theorem shiftRight_div32 (c : Nat) : c >>> 5 = c / 32 := by
  rw [Nat.shiftRight_eq_div_pow]

theorem testBit_maxu32 (k : Nat) (hk : k < 32) : Nat.testBit 0xFFFFFFFF k = true := by
  rw [show (0xFFFFFFFF : Nat) = 2 ^ 32 - 1 from by norm_num, Nat.testBit_two_pow_sub_one]
  simpa using hk

theorem and_not32_self (m k : Nat) (hk : k < 32) :
    (m &&& not32 (1 <<< k)) &&& (1 <<< k) = 0 := by
  rw [one_shiftLeft_eq, Nat.and_two_pow]
  have hbit : (m &&& not32 (2 ^ k)).testBit k = false := by
    rw [Nat.testBit_and]
    have h2 : (not32 (2 ^ k)).testBit k = false := by
      unfold not32
      rw [Nat.testBit_xor, testBit_maxu32 k hk, Nat.testBit_two_pow_self]
      rfl
    rw [h2, Bool.and_false]
  rw [hbit]
  simp

theorem and_not32_other (m k j : Nat) (hk : k < 32) (hj : j < 32) (hne : j ≠ k) :
    (m &&& not32 (1 <<< k)) &&& (1 <<< j) = m &&& (1 <<< j) := by
  rw [one_shiftLeft_eq, one_shiftLeft_eq, Nat.and_two_pow, Nat.and_two_pow]
  have hbit : (m &&& not32 (2 ^ k)).testBit j = m.testBit j := by
    rw [Nat.testBit_and]
    have h2 : (not32 (2 ^ k)).testBit j = true := by
      unfold not32
      rw [Nat.testBit_xor, testBit_maxu32 j hj,
        Nat.testBit_two_pow_of_ne (fun h => hne h.symm)]
      rfl
    rw [h2, Bool.and_true]
  rw [hbit]

theorem char_mask_lt32 (c : Nat) : c &&& 31 < 32 :=
  lt_of_le_of_lt Nat.and_le_right (by norm_num)

theorem mask_bit_clear_self (masks : List Nat) (c : Nat) :
    mask_bit (clear_mask_bit masks c) c = 0 := by
  unfold mask_bit clear_mask_bit char_mask
  by_cases hb : char_bucket c < masks.length
  · rw [List.getD_eq_getElem?_getD, List.getElem?_set_self (by simpa using hb)]
    exact and_not32_self _ _ (char_mask_lt32 c)
  · rw [List.set_eq_of_length_le (by omega), List.getD_eq_getElem?_getD,
      List.getElem?_eq_none (by omega)]
    simp

theorem mask_bit_clear_other (masks : List Nat) (c x : Nat)
    (hc : c < 256) (hx : x < 256) (hne : x ≠ c) :
    mask_bit (clear_mask_bit masks c) x = mask_bit masks x := by
  unfold mask_bit clear_mask_bit
  by_cases hb : char_bucket x = char_bucket c
  · rw [hb]
    by_cases hlen : char_bucket c < masks.length
    · rw [List.getD_eq_getElem?_getD, List.getElem?_set_self (by simpa using hlen),
        Option.getD_some, List.getD_eq_getElem?_getD]
      show (_ &&& not32 (char_mask c)) &&& char_mask x = _
      unfold char_mask
      apply and_not32_other _ _ _ (char_mask_lt32 c) (char_mask_lt32 x)
      have hbx : x / 32 = c / 32 := by
        have := hb
        unfold char_bucket at this
        rwa [shiftRight_div32, shiftRight_div32] at this
      rw [and_31_mod, and_31_mod]
      omega
    · rw [List.set_eq_of_length_le (by omega)]
  · rw [List.getD_eq_getElem?_getD, List.getElem?_set_ne (fun h => hb (by omega)),
      List.getD_eq_getElem?_getD]

theorem and_maxu32_shift : ∀ k < 32, 0xFFFFFFFF &&& (1 <<< k) = 1 <<< k := by
  decide

theorem mask_bit_init (c : Nat) (hc : c < 256) :
    mask_bit init_compiled.valid_ascii_mask c = char_mask c := by
  unfold mask_bit init_compiled
  have hb : char_bucket c < 8 := by
    unfold char_bucket
    rw [shiftRight_div32]
    omega
  rw [List.getD_eq_getElem?_getD, List.getElem?_replicate, if_pos hb, Option.getD_some]
  exact and_maxu32_shift _ (char_mask_lt32 c)

theorem char_mask_ne_zero (c : Nat) : char_mask c ≠ 0 := by
  unfold char_mask
  rw [one_shiftLeft_eq]
  positivity

theorem mem_char_range (start stop x : Nat) (hstop : stop ≤ 0xD800) :
    x ∈ char_range start stop ↔ start ≤ x ∧ x < stop := by
  unfold char_range
  simp only [List.mem_filter, List.mem_map, List.mem_range, decide_eq_true_eq]
  constructor
  · rintro ⟨⟨i, hi, rfl⟩, -⟩
    omega
  · intro h
    exact ⟨⟨x - start, by omega, by omega⟩, by omega⟩

theorem foldl_esc_encode (min simple : Bool) (L : List Nat) (init : CompiledEncoderRules) (x : Nat) :
    ((L.foldl (range_esc_step min simple none) init).encode_map) x =
      if x ∈ L then some ⟨min, simple⟩ else init.encode_map x := by
  induction L generalizing init with
  | nil => simp
  | cons a L ih =>
    rw [List.foldl_cons, ih]
    by_cases hmem : x ∈ L
    · simp [hmem]
    · by_cases hxa : x = a <;>
        simp [hmem, hxa, range_esc_step, excluded, upd]

theorem foldl_esc_replace (min simple : Bool) (L : List Nat) (init : CompiledEncoderRules) (x : Nat) :
    ((L.foldl (range_esc_step min simple none) init).replace_map) x = init.replace_map x := by
  induction L generalizing init with
  | nil => rfl
  | cons a L ih =>
    rw [List.foldl_cons, ih]
    simp [range_esc_step, excluded]

theorem foldl_esc_mask (min simple : Bool) (L : List Nat) (init : CompiledEncoderRules) (x : Nat)
    (hL : ∀ c ∈ L, c < 256) (hx : x < 256) :
    mask_bit (L.foldl (range_esc_step min simple none) init).valid_ascii_mask x =
      if x ∈ L then 0 else mask_bit init.valid_ascii_mask x := by
  induction L generalizing init with
  | nil => simp
  | cons a L ih =>
    have ha : a < 256 := hL a (by simp)
    rw [List.foldl_cons, ih _ (fun c hc => hL c (by simp [hc]))]
    by_cases hmem : x ∈ L
    · simp [hmem]
    · by_cases hxa : x = a
      · subst hxa
        simp only [hmem, if_false, List.mem_cons, true_or, if_pos (Or.inl rfl)]
        simp [range_esc_step, excluded]
        exact mask_bit_clear_self _ _
      · simp only [hmem, if_false, List.mem_cons]
        rw [if_neg (by tauto)]
        simp [range_esc_step, excluded]
        exact mask_bit_clear_other _ _ _ ha hx hxa

theorem foldl_sub_replace (rs : List Nat) (L : List Nat) (init : CompiledEncoderRules) (x : Nat) :
    ((L.foldl (range_sub_step rs none) init).replace_map) x =
      if x ∈ L then some rs else init.replace_map x := by
  induction L generalizing init with
  | nil => simp
  | cons a L ih =>
    rw [List.foldl_cons, ih]
    by_cases hmem : x ∈ L
    · simp [hmem]
    · by_cases hxa : x = a <;>
        simp [hmem, hxa, range_sub_step, excluded, upd]

theorem foldl_sub_encode (rs : List Nat) (L : List Nat) (init : CompiledEncoderRules) (x : Nat) :
    ((L.foldl (range_sub_step rs none) init).encode_map) x = init.encode_map x := by
  induction L generalizing init with
  | nil => rfl
  | cons a L ih =>
    rw [List.foldl_cons, ih]
    simp [range_sub_step, excluded]

theorem foldl_sub_mask (rs : List Nat) (L : List Nat) (init : CompiledEncoderRules) (x : Nat)
    (hL : ∀ c ∈ L, c < 256) (hx : x < 256) :
    mask_bit (L.foldl (range_sub_step rs none) init).valid_ascii_mask x =
      if x ∈ L then 0 else mask_bit init.valid_ascii_mask x := by
  induction L generalizing init with
  | nil => simp
  | cons a L ih =>
    have ha : a < 256 := hL a (by simp)
    rw [List.foldl_cons, ih _ (fun c hc => hL c (by simp [hc]))]
    by_cases hmem : x ∈ L
    · simp [hmem]
    · by_cases hxa : x = a
      · subst hxa
        simp only [hmem, if_false, List.mem_cons, true_or, if_pos (Or.inl rfl)]
        simp [range_sub_step, excluded]
        exact mask_bit_clear_self _ _
      · simp only [hmem, if_false, List.mem_cons]
        rw [if_neg (by tauto)]
        simp [range_sub_step, excluded]
        exact mask_bit_clear_other _ _ _ ha hx hxa

/-- C5 counterexample: for the range rule over [97, 99] with a
substitution action, the end character 99 gets no map entry and its
mask bit stays set, so the rule does not cover the inclusive interval
the claim describes (the iteration is the half-open `start..end`). -/
theorem compile_range_end_not_covered_cex :
    ((compile_encoder_rules [Rule.Range 97 99 none (RuleType.Sub (codes "Z"))]).bind
      fun r => r.replace_map 99) = none ∧
    ((compile_encoder_rules [Rule.Range 97 99 none (RuleType.Sub (codes "Z"))]).map
      fun r => mask_bit r.valid_ascii_mask 99) = some (char_mask 99) ∧
    ((compile_encoder_rules [Rule.Range 97 99 none (RuleType.Sub (codes "Z"))]).bind
      fun r => r.replace_map 98) = some (codes "Z") := by
  refine ⟨rfl, rfl, rfl⟩

/-- C5 (amended): for every Range rule with start < end < 256 and no
exclusions, compile_encoder_rules applies the rule's action to every
character of the half-open interval [start, end): each such character
has its mask bit cleared and its action recorded in the corresponding
map; the end character itself is untouched: its mask bit stays set and
neither map holds an entry for it. -/
theorem compile_range_half_open (start stop : Nat) (rt : RuleType)
    (h1 : start < stop) (h2 : stop < 256) :
    ∃ r, compile_encoder_rules [Rule.Range start stop none rt] = some r ∧
      (∀ c, start ≤ c → c < stop → mask_bit r.valid_ascii_mask c = 0 ∧
        (∀ min simple, rt = RuleType.Esc min simple → r.encode_map c = some ⟨min, simple⟩) ∧
        (∀ s, rt = RuleType.Sub s → r.replace_map c = some s)) ∧
      mask_bit r.valid_ascii_mask stop = char_mask stop ∧
      r.encode_map stop = none ∧ r.replace_map stop = none := by
  have hmem : ∀ x : Nat, x ∈ char_range start stop ↔ start ≤ x ∧ x < stop :=
    fun x => mem_char_range start stop x (by omega)
  have hL : ∀ c ∈ char_range start stop, c < 256 := by
    intro c hc
    have := (hmem c).mp hc
    omega
  have hstop_notmem : stop ∉ char_range start stop := by
    intro h
    have := (hmem stop).mp h
    omega
  cases rt with
  | Esc min simple =>
    refine ⟨(char_range start stop).foldl (range_esc_step min simple none) init_compiled,
      ?_, fun c hc1 hc2 => ⟨?_, ?_, ?_⟩, ?_, ?_, ?_⟩
    · show (apply_rule init_compiled _).bind _ = _
      simp only [apply_rule]
      rw [if_pos h1, if_pos ⟨by omega, h2⟩]
      rfl
    · rw [foldl_esc_mask _ _ _ _ _ hL (by omega), if_pos ((hmem c).mpr ⟨hc1, hc2⟩)]
    · intro mn sp heq
      cases heq
      rw [foldl_esc_encode, if_pos ((hmem c).mpr ⟨hc1, hc2⟩)]
    · intro s heq
      cases heq
    · rw [foldl_esc_mask _ _ _ _ _ hL h2, if_neg hstop_notmem]
      exact mask_bit_init stop h2
    · rw [foldl_esc_encode, if_neg hstop_notmem]
      rfl
    · rw [foldl_esc_replace]
      rfl
  | Sub s =>
    refine ⟨(char_range start stop).foldl (range_sub_step s none) init_compiled,
      ?_, fun c hc1 hc2 => ⟨?_, ?_, ?_⟩, ?_, ?_, ?_⟩
    · show (apply_rule init_compiled _).bind _ = _
      simp only [apply_rule]
      rw [if_pos h1, if_pos ⟨by omega, h2⟩]
      rfl
    · rw [foldl_sub_mask _ _ _ _ hL (by omega), if_pos ((hmem c).mpr ⟨hc1, hc2⟩)]
    · intro mn sp heq
      cases heq
    · intro s2 heq
      cases heq
      rw [foldl_sub_replace, if_pos ((hmem c).mpr ⟨hc1, hc2⟩)]
    · rw [foldl_sub_mask _ _ _ _ hL h2, if_neg hstop_notmem]
      exact mask_bit_init stop h2
    · rw [foldl_sub_encode]
      rfl
    · rw [foldl_sub_replace, if_neg hstop_notmem]
      rfl

/-- Witness for `compile_range_half_open` at the concrete range rule
over [97, 99) with a substitution action. -/
theorem compile_range_half_open_witness :
    ∃ r, compile_encoder_rules [Rule.Range 97 99 none (RuleType.Sub (codes "Z"))] = some r ∧
      (∀ c, 97 ≤ c → c < 99 → mask_bit r.valid_ascii_mask c = 0 ∧
        (∀ min simple, RuleType.Sub (codes "Z") = RuleType.Esc min simple →
          r.encode_map c = some ⟨min, simple⟩) ∧
        (∀ s, RuleType.Sub (codes "Z") = RuleType.Sub s → r.replace_map c = some s)) ∧
      mask_bit r.valid_ascii_mask 99 = char_mask 99 ∧
      r.encode_map 99 = none ∧ r.replace_map 99 = none :=
  compile_range_half_open 97 99 (RuleType.Sub (codes "Z")) (by decide) (by decide)

/-- C4: evaluation of the compiler at the failing boundary input.  A
Uni rule at code point 256 (U+0100) takes the mask branch because the
source guard is `c <= 256`, computes bucket 8 on the 8-word mask array
and panics (modelled by `none`); the same rule at code point 257
compiles fine, showing the failure is exactly the boundary off-by-one. -/
theorem compile_uni_256_panics :
    compile_encoder_rules [Rule.Uni 256 (RuleType.Esc false false)] = none ∧
    (compile_encoder_rules [Rule.Uni 257 (RuleType.Esc false false)]).isSome = true ∧
    (compile_encoder_rules [Rule.Uni 255 (RuleType.Esc false false)]).isSome = true :=
  ⟨rfl, rfl, rfl⟩

example : js_encode_str .Block .ASCII 92 (codes "\"") = some (codes "\\\"") := by decide
example : js_encode_str .Block .ASCII 92 (codes "/") = some (codes "\\/") := by decide
example : js_encode_str .Block .ASCII 92 (codes "-") = some (codes "\\-") := by decide
example : js_encode_str .Source .ASCII 92 (codes "&") = some (codes "\\x26") := by decide
example : js_encode_str .Source .ASCII 92 (codes "/") = some (codes "/") := by decide
example : js_encode_str .Html .ASCII 92 (codes "\"") = some (codes "\\x22") := by decide
example : js_encode_str .Attribute .ASCII 92 [39] = some (codes "\\x27") := by decide
example : js_encode_str .Block .ASCII 92 [0] = some (codes "\\x00") := by decide
example : js_encode_str .Block .ASCII 92 [8] = some (codes "\\b") := by decide
example : js_encode_str .Block .ASCII 92 [9] = some (codes "\\t") := by decide
example : js_encode_str .Block .ASCII 92 [0x2028] = some (codes "\\u2028") := by decide
example : js_encode_str .Block .ASCII 92 [0x1234] = some (codes "\\u1234") := by decide
example : js_encode_str .Block .ASCII 92 [0xFF] = some (codes "\\xff") := by decide
example : js_encode_str .Block .ASCIIExtended 92 [0xFF] = some [0xFF] := by decide
example : js_encode_str .Block .NoRestrict 92 [0x1234] = some [0x1234] := by decide
example : js_encode_str .Block .ASCII 92 (codes "abcd") = some (codes "abcd") := by decide

/-- C8 counterexample: under the Source profile U+2028 is emitted as
the six-character unicode escape (the source's own test asserts
exactly this), not as the escape lead followed by the raw separator:
the simple-escape flag of its rule is ignored on the at-or-above-256
path of encode. -/
theorem js_separator_not_simple_cex :
    js_encode_str JavaScriptEncoderMode.Source ValidAsciiRange.NoRestrict 92 [0x2028] =
      some (codes "\\u2028") ∧
    js_encode_str JavaScriptEncoderMode.Source ValidAsciiRange.NoRestrict 92 [0x2028] ≠
      some [92, 0x2028] := by
  constructor <;> decide

/-- C8 (amended): for the JavaScript modes Source, Block and Attribute,
under every AsciiPolicy and every escape character, encode maps each of
U+2028 and U+2029 to the fixed-width unicode escape: the escape lead,
then `u` (117), then the four hex digits 2028/2029 (codes 50 48 50 56
and 50 48 50 57); the simple flag of the rule is ignored because the
code point is above 255. -/
theorem js_separator_unicode_escape (e : Nat) (policy : ValidAsciiRange) :
    js_encode_str JavaScriptEncoderMode.Source policy e [0x2028] = some [e, 117, 50, 48, 50, 56] ∧
    js_encode_str JavaScriptEncoderMode.Source policy e [0x2029] = some [e, 117, 50, 48, 50, 57] ∧
    js_encode_str JavaScriptEncoderMode.Block policy e [0x2028] = some [e, 117, 50, 48, 50, 56] ∧
    js_encode_str JavaScriptEncoderMode.Block policy e [0x2029] = some [e, 117, 50, 48, 50, 57] ∧
    js_encode_str JavaScriptEncoderMode.Attribute policy e [0x2028] = some [e, 117, 50, 48, 50, 56] ∧
    js_encode_str JavaScriptEncoderMode.Attribute policy e [0x2029] = some [e, 117, 50, 48, 50, 57] := by
  refine ⟨?_, ?_, ?_, ?_, ?_, ?_⟩ <;> rfl

/-- C10: for every JavaScript mode, under the NoRestrict and
ASCIIExtended policies, every C0 control character not covered by a
profile rule (U+0001..U+0007, U+000B, U+000E..U+001F) is emitted into
the output unchanged. -/
theorem js_ctrl_passthrough (mode : JavaScriptEncoderMode) (policy : ValidAsciiRange)
    (hpol : policy = ValidAsciiRange.NoRestrict ∨ policy = ValidAsciiRange.ASCIIExtended) :
    ∀ c ∈ js_uncovered_ctrls, js_encode_str mode policy 92 [c] = some [c] := by
  rcases hpol with h | h <;> subst h <;> cases mode <;> decide

/-- Witness for `js_ctrl_passthrough` at concrete inputs. -/
theorem js_ctrl_passthrough_witness :
    js_encode_str JavaScriptEncoderMode.Source ValidAsciiRange.NoRestrict 92 [1] = some [1] ∧
    js_encode_str JavaScriptEncoderMode.Block ValidAsciiRange.ASCIIExtended 92 [0x1F] = some [0x1F] :=
  ⟨js_ctrl_passthrough JavaScriptEncoderMode.Source ValidAsciiRange.NoRestrict (Or.inl rfl)
      1 (by decide),
   js_ctrl_passthrough JavaScriptEncoderMode.Block ValidAsciiRange.ASCIIExtended (Or.inr rfl)
      0x1F (by decide)⟩

theorem mask_lookup (masks : List Nat) (c : Nat) (h : char_bucket c < masks.length) :
    masks[char_bucket c]? = some (masks.getD (char_bucket c) 0) := by
  rw [List.getD_eq_getElem?_getD, List.getElem?_eq_getElem h]
  rfl

/-- C6 counterexample: an Esc rule followed by a Sub rule on the same
character leaves the character in BOTH the escape map and the
substitution map, and encode then applies the escape (the first rule),
not the substitution (the last rule). -/
theorem js_conflict_rules_cex :
    ((js_compile_encoder_rules [JsRule.Uni 97 (JsRuleType.Esc true),
        JsRule.Uni 97 (JsRuleType.Sub (codes "Z"))]).map fun r =>
      ((r.encode_map 97).isSome, (r.replace_map 97).isSome)) = some (true, true) ∧
    ((js_compile_encoder_rules [JsRule.Uni 97 (JsRuleType.Esc true),
        JsRule.Uni 97 (JsRuleType.Sub (codes "Z"))]).bind fun r =>
      js_encode_char r 92 32 ValidAsciiRange.NoRestrict 97) = some [92, 97] := by
  constructor <;> rfl

/-- C6 (amended): rule conflicts in the compiler are resolved per map,
not globally.  When two rules of the SAME action kind target a
character, the last one determines the entry (last-writer-wins within a
map).  But a character targeted by an Esc rule and a Sub rule is
recorded in BOTH maps — the at-most-one invariant fails — and encode's
lookup priority, not rule order, decides its treatment: for a code
point below 256 the escape map is consulted first, so the escape
action applies regardless of rule order. -/
theorem js_rule_conflict_semantics (c : Nat) (hc : c < 256)
    (s1 s2 : List Nat) (b1 b2 : Bool) :
    ((js_compile_encoder_rules [JsRule.Uni c (JsRuleType.Sub s1),
        JsRule.Uni c (JsRuleType.Sub s2)]).map fun r =>
      (r.replace_map c, r.encode_map c)) = some (some s2, none) ∧
    ((js_compile_encoder_rules [JsRule.Uni c (JsRuleType.Esc b1),
        JsRule.Uni c (JsRuleType.Esc b2)]).map fun r =>
      (r.encode_map c, r.replace_map c)) = some (some b2, none) ∧
    ((js_compile_encoder_rules [JsRule.Uni c (JsRuleType.Esc b1),
        JsRule.Uni c (JsRuleType.Sub s2)]).map fun r =>
      (r.encode_map c, r.replace_map c)) = some (some b1, some s2) ∧
    ((js_compile_encoder_rules [JsRule.Uni c (JsRuleType.Esc b1),
        JsRule.Uni c (JsRuleType.Sub s2)]).bind fun r =>
      js_encode_char r 92 32 ValidAsciiRange.NoRestrict c) =
      (if b1 then some [92, c] else encode_as_hex_byte 92 c) := by
  refine ⟨?_, ?_, ?_, ?_⟩
  · simp [js_compile_encoder_rules, js_compile_go, js_apply_rule, js_record, upd,
      js_init_compiled, hc]
  · simp [js_compile_encoder_rules, js_compile_go, js_apply_rule, js_record, upd,
      js_init_compiled, hc]
  · simp [js_compile_encoder_rules, js_compile_go, js_apply_rule, js_record, upd,
      js_init_compiled, hc]
  · show (some (js_record (JsRuleType.Sub s2)
      (js_record (JsRuleType.Esc b1) js_init_compiled c) c)).bind _ = _
    rw [Option.some_bind]
    unfold js_encode_char
    rw [if_pos hc]
    have hmask2 : (js_record (JsRuleType.Sub s2)
        (js_record (JsRuleType.Esc b1) js_init_compiled c) c).valid_ascii_mask =
        clear_mask_bit (clear_mask_bit js_init_compiled.valid_ascii_mask c) c := by
      simp [js_record, hc]
    have hbk : char_bucket c <
        (clear_mask_bit (clear_mask_bit js_init_compiled.valid_ascii_mask c) c).length := by
      have hlen : (clear_mask_bit (clear_mask_bit js_init_compiled.valid_ascii_mask c) c).length = 8 := by
        simp [clear_mask_bit, js_init_compiled]
      rw [hlen]
      unfold char_bucket
      rw [shiftRight_div32]
      omega
    have henc : (js_record (JsRuleType.Sub s2)
        (js_record (JsRuleType.Esc b1) js_init_compiled c) c).encode_map c = some b1 := by
      simp [js_record, upd, js_init_compiled, hc]
    rw [hmask2, mask_lookup _ _ hbk, Option.some_bind,
      if_pos (show (clear_mask_bit (clear_mask_bit js_init_compiled.valid_ascii_mask c) c).getD
          (char_bucket c) 0 &&& char_mask c = 0 from
        mask_bit_clear_self (clear_mask_bit js_init_compiled.valid_ascii_mask c) c), henc]
    cases b1 <;> simp [show c ≤ 0xFF from by omega]

/-- Witness for `js_rule_conflict_semantics` at concrete inputs. -/
theorem js_rule_conflict_semantics_witness :
    ((js_compile_encoder_rules [JsRule.Uni 97 (JsRuleType.Esc true),
        JsRule.Uni 97 (JsRuleType.Sub (codes "Z"))]).map fun r =>
      (r.encode_map 97, r.replace_map 97)) = some (some true, some (codes "Z")) :=
  (js_rule_conflict_semantics 97 (by decide) (codes "Y") (codes "Z") true false).2.2.1

theorem hex_get_isSome (i : Nat) (h : i < 16) : (HEX[i]?).isSome := by
  have hl : i < HEX.length := by
    have : HEX.length = 16 := rfl
    omega
  rw [List.getElem?_eq_getElem hl]
  rfl

theorem uhex_get_isSome (i : Nat) (h : i < 16) : (U_HEX[i]?).isSome := by
  have hl : i < U_HEX.length := by
    have : U_HEX.length = 16 := rfl
    omega
  rw [List.getElem?_eq_getElem hl]
  rfl

theorem and_hexmask_lt16 (c : Nat) : c &&& HEX_MASK < 16 :=
  lt_of_le_of_lt Nat.and_le_right (by decide)

theorem encode_as_hex_byte_isSome (e c : Nat) (hc : c ≤ 0xFF) :
    (encode_as_hex_byte e c).isSome := by
  unfold encode_as_hex_byte
  obtain ⟨x, hx⟩ := Option.isSome_iff_exists.mp (hex_get_isSome (c >>> HEX_SHIFT)
    (by show c >>> 4 < 16; rw [Nat.shiftRight_eq_div_pow]; omega))
  obtain ⟨y, hy⟩ := Option.isSome_iff_exists.mp (hex_get_isSome (c &&& HEX_MASK)
    (and_hexmask_lt16 c))
  rw [hx, hy]
  rfl

theorem encode_as_unicode_isSome (e c : Nat) : (encode_as_unicode e c).isSome := by
  unfold encode_as_unicode
  obtain ⟨x3, h3⟩ := Option.isSome_iff_exists.mp
    (hex_get_isSome ((c >>> (3 * HEX_SHIFT)) &&& HEX_MASK) (and_hexmask_lt16 _))
  obtain ⟨x2, h2⟩ := Option.isSome_iff_exists.mp
    (hex_get_isSome ((c >>> (2 * HEX_SHIFT)) &&& HEX_MASK) (and_hexmask_lt16 _))
  obtain ⟨x1, h1⟩ := Option.isSome_iff_exists.mp
    (hex_get_isSome ((c >>> (1 * HEX_SHIFT)) &&& HEX_MASK) (and_hexmask_lt16 _))
  obtain ⟨x0, h0⟩ := Option.isSome_iff_exists.mp
    (hex_get_isSome (c &&& HEX_MASK) (and_hexmask_lt16 _))
  rw [h3, h2, h1, h0]
  rfl

theorem js_policy_fallback_isSome (policy : ValidAsciiRange) (e c : Nat) :
    (js_policy_fallback policy e c).isSome := by
  unfold js_policy_fallback
  cases policy with
  | NoRestrict => rfl
  | ASCIIExtended =>
    by_cases h : 0xFF < c
    · rw [if_pos h]
      exact encode_as_unicode_isSome e c
    · rw [if_neg h]
      rfl
  | ASCII =>
    by_cases h : c ≤ 0xFF
    · rw [if_pos h]
      exact encode_as_hex_byte_isSome e c h
    · rw [if_neg h]
      exact encode_as_unicode_isSome e c

theorem js_encode_char_isSome (r : JsCompiledRules) (hlen : r.valid_ascii_mask.length = 8)
    (e inv : Nat) (policy : ValidAsciiRange) (c : Nat) :
    (js_encode_char r e inv policy c).isSome := by
  unfold js_encode_char
  by_cases hc : c < 256
  · have hbk : char_bucket c < r.valid_ascii_mask.length := by
      rw [hlen]
      unfold char_bucket
      rw [shiftRight_div32]
      omega
    rw [if_pos hc, List.getElem?_eq_getElem hbk, Option.some_bind]
    repeat' split
    all_goals first
      | rfl
      | exact encode_as_hex_byte_isSome e c (by omega)
      | exact encode_as_unicode_isSome e c
      | exact js_policy_fallback_isSome _ e c
  · rw [if_neg hc]
    repeat' split
    all_goals first
      | rfl
      | exact encode_as_hex_byte_isSome e c (by omega)
      | exact encode_as_unicode_isSome e c
      | exact js_policy_fallback_isSome _ e c

theorem pct_hex_isSome (b : Nat) (hb : b < 256) : (pct_hex b).isSome := by
  unfold pct_hex
  obtain ⟨x, hx⟩ := Option.isSome_iff_exists.mp (uhex_get_isSome (b >>> HEX_SHIFT)
    (by show b >>> 4 < 16; rw [Nat.shiftRight_eq_div_pow]; omega))
  obtain ⟨y, hy⟩ := Option.isSome_iff_exists.mp (uhex_get_isSome (b &&& HEX_MASK)
    (and_hexmask_lt16 b))
  rw [hx, hy]
  rfl

theorem or_byte_lt256 (a b : Nat) (ha : a < 256) (hb : b < 256) : a ||| b < 256 := by
  have h8 : (256 : Nat) = 2 ^ 8 := by norm_num
  rw [h8] at ha hb ⊢
  exact Nat.or_lt_two_pow ha hb

theorem uri_encode_char_isSome (masks : List Nat) (hlen : masks.length = 4)
    (c : Nat) (hc : c < 0x110000) : (uri_encode_char masks c).isSome := by
  unfold uri_encode_char
  by_cases h127 : c ≤ 127
  · rw [if_pos h127]
    have hbk : char_bucket c < masks.length := by
      rw [hlen]
      unfold char_bucket
      rw [shiftRight_div32]
      omega
    rw [List.getElem?_eq_getElem hbk, Option.some_bind]
    split
    · rfl
    · exact pct_hex_isSome c (by omega)
  · rw [if_neg h127]
    by_cases h2 : c ≤ MAX_UTF8_2_BYTE
    · rw [if_pos h2]
      have hlead : UTF8_2_BYTE_FIRST_MSB ||| (c >>> UTF8_SHIFT) < 256 := by
        apply or_byte_lt256 _ _ (by decide)
        show c >>> 6 < 256
        rw [shiftRight_div64]
        have hmax : c ≤ 0x7FF := h2
        omega
      have hcont : UTF8_BYTE_MSB ||| (c &&& UTF8_MASK) < 256 :=
        or_byte_lt256 _ _ (by decide) (lt_of_le_of_lt Nat.and_le_right (by decide))
      obtain ⟨p1, hp1⟩ := Option.isSome_iff_exists.mp (pct_hex_isSome _ hlead)
      obtain ⟨p2, hp2⟩ := Option.isSome_iff_exists.mp (pct_hex_isSome _ hcont)
      rw [hp1, hp2]
      rfl
    · rw [if_neg h2]
      have hcont : ∀ x : Nat, UTF8_BYTE_MSB ||| (x &&& UTF8_MASK) < 256 := fun x =>
        or_byte_lt256 _ _ (by decide) (lt_of_le_of_lt Nat.and_le_right (by decide))
      by_cases h3 : c ≤ 0xFFFF
      · rw [if_pos h3]
        have hlead : UTF8_3_BYTE_FIRST_MSB ||| (c >>> (2 * UTF8_SHIFT)) < 256 := by
          apply or_byte_lt256 _ _ (by decide)
          show c >>> 12 < 256
          rw [shiftRight_div4096]
          omega
        obtain ⟨p1, hp1⟩ := Option.isSome_iff_exists.mp (pct_hex_isSome _ hlead)
        obtain ⟨p2, hp2⟩ := Option.isSome_iff_exists.mp (pct_hex_isSome _ (hcont (c >>> UTF8_SHIFT)))
        obtain ⟨p3, hp3⟩ := Option.isSome_iff_exists.mp (pct_hex_isSome _ (hcont c))
        rw [hp1, hp2, hp3]
        rfl
      · rw [if_neg h3]
        have hlead : UTF8_4_BYTE_FIRST_MSB ||| (c >>> (3 * UTF8_SHIFT)) < 256 := by
          apply or_byte_lt256 _ _ (by decide)
          show c >>> 18 < 256
          rw [shiftRight_div262144]
          omega
        obtain ⟨p1, hp1⟩ := Option.isSome_iff_exists.mp (pct_hex_isSome _ hlead)
        obtain ⟨p2, hp2⟩ := Option.isSome_iff_exists.mp
          (pct_hex_isSome _ (hcont (c >>> (2 * UTF8_SHIFT))))
        obtain ⟨p3, hp3⟩ := Option.isSome_iff_exists.mp (pct_hex_isSome _ (hcont (c >>> UTF8_SHIFT)))
        obtain ⟨p4, hp4⟩ := Option.isSome_iff_exists.mp (pct_hex_isSome _ (hcont c))
        rw [hp1, hp2, hp3, hp4]
        rfl

theorem xml_encode_char_isSome (masks : List Nat) (hlen : masks.length = 4) (c : Nat) :
    (xml_encode_char masks c).isSome := by
  unfold xml_encode_char
  by_cases h127 : c < 127
  · rw [if_pos h127]
    by_cases h62 : 62 < c
    · rw [if_pos h62]
      rfl
    · rw [if_neg h62]
      have hbk : char_bucket c < masks.length := by
        rw [hlen]
        unfold char_bucket
        rw [shiftRight_div32]
        omega
      rw [List.getElem?_eq_getElem hbk, Option.some_bind]
      repeat' split
      all_goals rfl
  · rw [if_neg h127]
    split
    · rfl
    · rfl

theorem uri_new_length (mode : UriEncoderMode) : (uri_new mode).length = 4 := by
  cases mode <;> rfl

theorem xml_new_length (mode : XmlEncoderMode) : (xml_new mode).length = 4 := by
  cases mode <;> rfl

theorem js_create_eq (e : Nat) (policy : ValidAsciiRange) (mode : JavaScriptEncoderMode) :
    js_create e policy mode =
      some { rules := js_artifact mode, escape_char := e, invalid_char := 32,
             ascii_properties := policy } := by
  cases mode <;> rfl

theorem js_artifact_mask_length (mode : JavaScriptEncoderMode) :
    (js_artifact mode).valid_ascii_mask.length = 8 := by
  cases mode <;> rfl

/-- C2: for every encoder variant — every JavaScript mode under every
AsciiPolicy and escape character, every URI mode, every XML mode — and
every input of Unicode scalar values, encode terminates and returns a
string: construction and the whole encoding loop produce `some`, so no
table index (mask bucket or hex digit) is out of bounds and every code
point has a defined output. -/
theorem encode_total :
    (∀ (mode : JavaScriptEncoderMode) (policy : ValidAsciiRange) (e : Nat) (input : List Nat),
      (∀ c ∈ input, c < 0x110000) → ∃ out, js_encode_str mode policy e input = some out) ∧
    (∀ (mode : UriEncoderMode) (input : List Nat),
      (∀ c ∈ input, c < 0x110000) → ∃ out, uri_encode mode input = some out) ∧
    (∀ (mode : XmlEncoderMode) (input : List Nat),
      ∃ out, xml_encode mode input = some out) := by
  refine ⟨fun mode policy e input hin => ?_, fun mode input hin => ?_, fun mode input => ?_⟩
  · unfold js_encode_str
    rw [js_create_eq, Option.some_bind]
    apply Option.isSome_iff_exists.mp
    apply encode_all_isSome
    intro c _
    exact js_encode_char_isSome _ (js_artifact_mask_length mode) _ _ _ _
  · apply Option.isSome_iff_exists.mp
    apply encode_all_isSome
    intro c hcmem
    exact uri_encode_char_isSome _ (uri_new_length mode) _ (hin c hcmem)
  · apply Option.isSome_iff_exists.mp
    apply encode_all_isSome
    intro c _
    exact xml_encode_char_isSome _ (xml_new_length mode) _

/-- Witness for `encode_total` at concrete inputs covering all three
encoders. -/
theorem encode_total_witness :
    (∃ out, js_encode_str JavaScriptEncoderMode.Source ValidAsciiRange.ASCII 92
      [60, 0x2028, 0x1F600] = some out) ∧
    (∃ out, uri_encode UriEncoderMode.Component [0x10FFFF] = some out) ∧
    (∃ out, xml_encode XmlEncoderMode.All [0] = some out) :=
  ⟨encode_total.1 JavaScriptEncoderMode.Source ValidAsciiRange.ASCII 92 _ (by decide),
   encode_total.2.1 UriEncoderMode.Component _ (by decide),
   encode_total.2.2 XmlEncoderMode.All _⟩
